import Mathlib

/-!
Verification of the client-side transaction-orchestration layer of the
miden-tutorials repository (rust-client): the Foreign-Account Resolver
(`oracle_data_query.rs`), the Script Template Resolver
(`counter_contract_increment.rs` / `counter_contract_fpi.rs`), the
Note-Chain Orchestrator (`unauthenticated_note_transfer.rs` /
`ephemeral_note_transfer.rs`), the Consumability Poller
(`hash_preimage_note.rs::wait_for_notes`), and the deterministic key
helper (`common.rs::get_new_pk_and_authenticator`).

Machine integers are modelled as `Nat` with explicit wrap-around (`% 256`
for `u8` arithmetic) where the source overflows; fallible operations
(`unwrap`, `?`) are modelled with `Option`.
-/

namespace MidenTutorials

/-- An account id is a pair of 64-bit halves (`AccountId::new_unchecked([words[3], words[2]])`
in the source stores prefix and suffix felts). -/
structure AccountId where
  prefix_felt : Nat
  suffix_felt : Nat
deriving DecidableEq, Repr

/-- A `Word` of the ledger: four field elements, modelled as naturals
(the source reads them with `as_int()` into `u64`). -/
structure Word4 where
  w0 : Nat
  w1 : Nat
  w2 : Nat
  w3 : Nat
deriving DecidableEq, Repr

/-! ## Foreign-Account Resolver (`oracle_data_query.rs::get_oracle_foreign_accounts`) -/

/-- The storage of the imported oracle (root) account: a map from slot
index to the `Word` stored there. `get_item` can fail (the source calls
`.unwrap()` on its `Result`), so a missing/malformed slot is `none`. -/
structure OracleStorage where
  get_item : Nat → Option Word4

/-- The storage requirement attached to a leaf reference: the single
storage-map key `[0, 0, 0, trading_pair]` at map slot 1 (the source
builds `AccountStorageRequirements::new([(1u8, [StorageMapKey::from([ZERO, ZERO, ZERO, Felt::new(trading_pair)])])])`);
the root reference declares no keys (`AccountStorageRequirements::default()`). -/
inductive StorageRequirement where
  | mapKey (slot : Nat) (key : Word4) : StorageRequirement
  | defaultReq : StorageRequirement
deriving DecidableEq, Repr

/-- A `ForeignAccount` reference: an account id plus its declared storage
requirement. -/
structure ForeignAccount where
  id : AccountId
  requirement : StorageRequirement
deriving DecidableEq, Repr

/-- Slot index read for directory entry `i`: the source computes
`2 + i as u8`, i.e. `i` truncated to `u8` and added with `u8` wrap-around. -/
def publisherSlot (i : Nat) : Nat :=
  (2 + i % 256) % 256

/-- Decoding of the publisher-id directory entries: for each index `i` of
the iterator `1..publisher_count.saturating_sub(1)` the source reads slot
`2 + i as u8` and decodes `AccountId::new_unchecked([words[3], words[2]])`;
the `.unwrap()` on `get_item` makes any failure abort the whole map. -/
def decodePublishers (storage : OracleStorage) : List Nat → Option (List AccountId)
  | [] => some []
  | i :: rest =>
    match storage.get_item (publisherSlot i) with
    | none => none
    | some w =>
      (decodePublishers storage rest).map (fun tl => ⟨w.w3, w.w2⟩ :: tl)

/-- The leaf reference built for publisher `pid`: only the storage-map key
implied by the trading pair is declared. -/
def leafReference (pid : AccountId) (trading_pair : Nat) : ForeignAccount :=
  ⟨pid, .mapKey 1 ⟨0, 0, 0, trading_pair⟩⟩

/-- The root (oracle) reference, with no key restriction. -/
def rootReference (oracle_account_id : AccountId) : ForeignAccount :=
  ⟨oracle_account_id, .defaultReq⟩

/-- The index range `1..publisher_count.saturating_sub(1)` of the source:
start 1, length `(c - 1) - 1` with saturating subtraction (`Nat` subtraction
saturates exactly like `u64::saturating_sub` here). -/
def publisherIndices (publisher_count : Nat) : List Nat :=
  List.range' 1 (publisher_count - 1 - 1)

/-- Shallow embedding of `get_oracle_foreign_accounts`: read the count from
slot 1, decode the directory entries, build one leaf reference per decoded
publisher, and append the root reference last. `none` models the panics of
the `.unwrap()` calls on storage reads. -/
def get_oracle_foreign_accounts (storage : OracleStorage)
    (oracle_account_id : AccountId) (trading_pair : Nat) :
    Option (List ForeignAccount) :=
  match storage.get_item 1 with
  | none => none
  | some countWord =>
    let publisher_count := countWord.w0
    match decodePublishers storage (publisherIndices publisher_count) with
    | none => none
    | some publisher_ids =>
      some ((publisher_ids.map (fun pid => leafReference pid trading_pair))
            ++ [rootReference oracle_account_id])

theorem decodePublishers_length (storage : OracleStorage) :
    ∀ idxs pids, decodePublishers storage idxs = some pids →
      pids.length = idxs.length := by
  intro idxs
  induction idxs with
  | nil => intro pids h; simp [decodePublishers] at h; simp [← h]
  | cons i rest ih =>
    intro pids h
    simp only [decodePublishers] at h
    cases hslot : storage.get_item (publisherSlot i) with
    | none => rw [hslot] at h; simp at h
    | some w =>
      rw [hslot] at h
      cases hrest : decodePublishers storage rest with
      | none => rw [hrest] at h; simp at h
      | some tl =>
        rw [hrest] at h
        simp only [Option.map, Option.some.injEq] at h
        subst h
        simp [ih tl hrest]

theorem decodePublishers_none_of_bad_slot (storage : OracleStorage) :
    ∀ idxs, (∃ i ∈ idxs, storage.get_item (publisherSlot i) = none) →
      decodePublishers storage idxs = none := by
  intro idxs
  induction idxs with
  | nil => rintro ⟨i, hi, _⟩; simp at hi
  | cons j rest ih =>
    rintro ⟨i, hi, hbad⟩
    simp only [List.mem_cons] at hi
    cases hi with
    | inl h => subst h; simp [decodePublishers, hbad]
    | inr h =>
      simp only [decodePublishers]
      cases hslot : storage.get_item (publisherSlot j) with
      | none => rfl
      | some w => rw [ih ⟨i, h, hbad⟩]; rfl

/-- C1: for every dependency directory whose declared count (slot 1, first
felt) is `c`, a successful resolution returns exactly `c - 2` (`Nat`
subtraction, i.e. `max(c-2, 0)`) leaf references followed by exactly one
root reference, the root reference is the last element, and for `c ≤ 1`
only the root reference is returned. -/
theorem resolver_returns_leaves_then_root (storage : OracleStorage)
    (oracle_account_id : AccountId) (trading_pair : Nat)
    (countWord : Word4) (result : List ForeignAccount)
    (hcount : storage.get_item 1 = some countWord)
    (hres : get_oracle_foreign_accounts storage oracle_account_id trading_pair
              = some result) :
    ∃ leaves : List ForeignAccount,
      result = leaves ++ [rootReference oracle_account_id] ∧
      leaves.length = countWord.w0 - 2 ∧
      result.getLast? = some (rootReference oracle_account_id) ∧
      (countWord.w0 ≤ 1 → result = [rootReference oracle_account_id]) := by
  simp only [get_oracle_foreign_accounts, hcount] at hres
  cases hdec : decodePublishers storage (publisherIndices countWord.w0) with
  | none => rw [hdec] at hres; simp at hres
  | some pids =>
    rw [hdec] at hres
    simp only [Option.some.injEq] at hres
    subst hres
    refine ⟨pids.map (fun pid => leafReference pid trading_pair), rfl, ?_, ?_, ?_⟩
    · have hlen := decodePublishers_length storage _ _ hdec
      simp [hlen, publisherIndices]
      omega
    · exact List.getLast?_concat _
    · intro hc
      have hlen := decodePublishers_length storage _ _ hdec
      have : pids.length = 0 := by
        rw [hlen]; simp [publisherIndices]; omega
      have : pids = [] := List.length_eq_zero.mp this
      subst this
      simp

/-- Witness for C1: a concrete directory with declared count 4 resolves to
two leaf references followed by the root reference. -/
theorem resolver_returns_leaves_then_root_witness :
    ∃ leaves : List ForeignAccount,
      ([leafReference ⟨6, 5⟩ 9, leafReference ⟨8, 7⟩ 9,
        rootReference ⟨1, 2⟩] : List ForeignAccount)
          = leaves ++ [rootReference ⟨1, 2⟩] ∧
      leaves.length = Word4.w0 ⟨4, 0, 0, 0⟩ - 2 ∧
      ([leafReference ⟨6, 5⟩ 9, leafReference ⟨8, 7⟩ 9,
        rootReference ⟨1, 2⟩] : List ForeignAccount).getLast?
          = some (rootReference ⟨1, 2⟩) ∧
      (Word4.w0 ⟨4, 0, 0, 0⟩ ≤ 1 →
        ([leafReference ⟨6, 5⟩ 9, leafReference ⟨8, 7⟩ 9,
          rootReference ⟨1, 2⟩] : List ForeignAccount)
            = [rootReference ⟨1, 2⟩]) := by
  exact resolver_returns_leaves_then_root
    ⟨fun n => if n = 1 then some ⟨4, 0, 0, 0⟩
              else if n = 3 then some ⟨0, 0, 5, 6⟩
              else if n = 4 then some ⟨0, 0, 7, 8⟩
              else none⟩
    ⟨1, 2⟩ 9 ⟨4, 0, 0, 0⟩ _ rfl rfl

/-- C6: a decode failure on any directory entry's storage slot (modelled as
`get_item` returning `none`, the panic of the source's `.unwrap()`) makes the
whole resolution abort: the resolver returns no list at all, so it can never
skip a malformed entry and return a list missing that dependency. -/
theorem resolver_aborts_on_decode_failure (storage : OracleStorage)
    (oracle_account_id : AccountId) (trading_pair : Nat)
    (countWord : Word4) (i : Nat)
    (hcount : storage.get_item 1 = some countWord)
    (hi : i ∈ publisherIndices countWord.w0)
    (hbad : storage.get_item (publisherSlot i) = none) :
    get_oracle_foreign_accounts storage oracle_account_id trading_pair = none := by
  simp only [get_oracle_foreign_accounts, hcount]
  rw [decodePublishers_none_of_bad_slot storage _ ⟨i, hi, hbad⟩]

/-- Witness for C6: a directory with declared count 4 whose second entry's
slot is missing makes the resolution abort with `none`. -/
theorem resolver_aborts_on_decode_failure_witness :
    get_oracle_foreign_accounts
      ⟨fun n => if n = 1 then some ⟨4, 0, 0, 0⟩
                else if n = 3 then some ⟨0, 0, 5, 6⟩
                else none⟩
      ⟨1, 2⟩ 9 = none := by
  exact resolver_aborts_on_decode_failure _ _ _ ⟨4, 0, 0, 0⟩ 2 rfl
    (by simp [publisherIndices]) rfl

/-! ## Consumability Poller (`hash_preimage_note.rs::wait_for_notes`) -/

/-- The local Sync State (spec §3): block height plus, per account, the
set of currently consumable notes (note ids). Advances only through
explicit resynchronization. -/
structure SyncState where
  block_num : Nat
  consumable : AccountId → List Nat

/-- `client.get_consumable_notes(Some(account_id))`: a pure read of the
consumable-note set of the last-synced state. -/
def get_consumable_notes (sync : SyncState) (account : AccountId) : List Nat :=
  sync.consumable account

/-- The whole client-side state visible to the poller: the Sync State, the
transactions submitted so far, and the local cache of ledger-bound data
(account/vault state and note records). -/
structure ClientState where
  sync : SyncState
  submitted : List Nat
  accounts : AccountId → Option Nat
  notes : List Nat

/-- `client.sync_state()`: refreshes the local Sync State from the remote
ledger (external service of spec §6 — its contract is to replace the local
Sync State with the ledger's current view and touch nothing else). -/
def sync_state (remote : SyncState) (s : ClientState) : ClientState :=
  { s with sync := remote }

/-- Pure model of the `wait_for_notes` loop's observable control flow:
`remote k` is the Sync State delivered by the `k`-th resynchronization,
`fuel` bounds how many iterations we unfold, and the result is the
iteration index at which the loop broke (`none` when it has not broken
within `fuel` iterations — the source loop itself is unbounded). -/
def wait_for_notes_run (remote : Nat → SyncState) (account : AccountId)
    (expected : Nat) : Nat → Nat → Option Nat
  | _, 0 => none
  | k, fuel + 1 =>
    if expected ≤ (get_consumable_notes (remote k) account).length then some k
    else wait_for_notes_run remote account expected (k + 1) fuel

/-- State-passing model of the same loop: each iteration resynchronizes
(`sync_state`), reads the consumable notes, and either breaks or sleeps and
retries. -/
def wait_for_notes_loop (remote : Nat → SyncState) (account : AccountId)
    (expected : Nat) : Nat → Nat → ClientState → ClientState
  | _, 0, s => s
  | k, fuel + 1, s =>
    let s1 := sync_state (remote k) s
    if expected ≤ (get_consumable_notes s1.sync account).length then s1
    else wait_for_notes_loop remote account expected (k + 1) fuel s1

theorem wait_for_notes_run_some_iff (remote : Nat → SyncState)
    (account : AccountId) (expected : Nat) :
    ∀ fuel start k,
      wait_for_notes_run remote account expected start fuel = some k ↔
        (start ≤ k ∧ k < start + fuel ∧
         expected ≤ (get_consumable_notes (remote k) account).length ∧
         ∀ j, start ≤ j → j < k →
           (get_consumable_notes (remote j) account).length < expected) := by
  intro fuel
  induction fuel with
  | zero =>
    intro start k
    simp only [wait_for_notes_run]
    constructor
    · intro h; cases h
    · rintro ⟨h1, h2, _⟩; omega
  | succ n ih =>
    intro start k
    simp only [wait_for_notes_run]
    by_cases hc : expected ≤ (get_consumable_notes (remote start) account).length
    · simp only [if_pos hc]
      constructor
      · rintro ⟨⟩
        exact ⟨le_refl _, by omega, hc, fun j h1 h2 => by omega⟩
      · rintro ⟨h1, _, _, h4⟩
        by_cases hk : k = start
        · subst hk; rfl
        · exact absurd hc (not_le.mpr (h4 start (le_refl _) (by omega)))
    · simp only [if_neg hc]
      rw [ih (start + 1) k]
      constructor
      · rintro ⟨h1, h2, h3, h4⟩
        refine ⟨by omega, by omega, h3, fun j hj1 hj2 => ?_⟩
        by_cases hj : j = start
        · subst hj; exact not_le.mp hc
        · exact h4 j (by omega) hj2
      · rintro ⟨h1, h2, h3, h4⟩
        have hk : k ≠ start := by
          intro hk; subst hk; exact hc h3
        exact ⟨by omega, by omega, h3, fun j hj1 hj2 => h4 j (by omega) hj2⟩

/-- C3: the poller returns success exactly when some post-resynchronization
query reports a consumable-note count ≥ the expected count; it breaks at the
first such iteration and never returns success while the condition is unmet
(every earlier iteration's observed count is below `expected`). -/
theorem poller_success_iff_condition_met (remote : Nat → SyncState)
    (account : AccountId) (expected fuel k : Nat) :
    wait_for_notes_run remote account expected 0 fuel = some k ↔
      (k < fuel ∧
       expected ≤ (get_consumable_notes (remote k) account).length ∧
       ∀ j < k, (get_consumable_notes (remote j) account).length < expected) := by
  rw [wait_for_notes_run_some_iff]
  constructor
  · rintro ⟨_, h2, h3, h4⟩
    exact ⟨by omega, h3, fun j hj => h4 j (Nat.zero_le _) hj⟩
  · rintro ⟨h1, h2, h3⟩
    exact ⟨Nat.zero_le _, by omega, h2, fun j _ hj => h3 j hj⟩

/-- C8: the poller has no retry bound: if the observed consumable-note count
stays below the expected count at every resynchronization, then no number of
iterations makes the loop return — it never terminates with success or error. -/
theorem poller_never_returns_when_unmet (remote : Nat → SyncState)
    (account : AccountId) (expected : Nat)
    (h : ∀ i, (get_consumable_notes (remote i) account).length < expected) :
    ∀ fuel start,
      wait_for_notes_run remote account expected start fuel = none := by
  intro fuel
  induction fuel with
  | zero => intro start; rfl
  | succ n ih =>
    intro start
    simp only [wait_for_notes_run, if_neg (not_le.mpr (h start))]
    exact ih (start + 1)

/-- A remote ledger view with no consumable notes at all. -/
def emptySync : SyncState :=
  ⟨0, fun _ => []⟩

/-- Witness for C8: against a remote that never shows any consumable note
and expected count 1, the loop returns `none` at every fuel. -/
theorem poller_never_returns_when_unmet_witness :
    (∀ i, (get_consumable_notes ((fun _ : Nat => emptySync) i) ⟨0, 0⟩).length < 1) ∧
    ∀ fuel start,
      wait_for_notes_run (fun _ : Nat => emptySync) ⟨0, 0⟩ 1 start fuel = none := by
  refine ⟨fun i => by simp [get_consumable_notes, emptySync], ?_⟩
  exact poller_never_returns_when_unmet (fun _ : Nat => emptySync) ⟨0, 0⟩ 1
    (fun i => by simp [get_consumable_notes, emptySync])

/-- C9: every iteration of the poller mutates only the Sync State component
of the client state: however many iterations run, the submitted-transaction
list and the ledger-bound data (cached accounts, notes) are exactly those of
the initial state. -/
theorem poller_mutates_only_sync_state (remote : Nat → SyncState)
    (account : AccountId) (expected : Nat) :
    ∀ fuel start s,
      (wait_for_notes_loop remote account expected start fuel s).submitted
          = s.submitted ∧
      (wait_for_notes_loop remote account expected start fuel s).accounts
          = s.accounts ∧
      (wait_for_notes_loop remote account expected start fuel s).notes
          = s.notes := by
  intro fuel
  induction fuel with
  | zero => intro start s; exact ⟨rfl, rfl, rfl⟩
  | succ n ih =>
    intro start s
    simp only [wait_for_notes_loop]
    by_cases hc : expected ≤
        (get_consumable_notes (sync_state (remote start) s).sync account).length
    · simp only [if_pos hc]
      exact ⟨rfl, rfl, rfl⟩
    · simp only [if_neg hc]
      exact ih (start + 1) (sync_state (remote start) s)

/-! ## Note-Chain Orchestrator
(`unauthenticated_note_transfer.rs` / `ephemeral_note_transfer.rs`, STEP 4)

The loop `for i in 0..number_of_accounts - 1` builds, per hop `i`, one
note-creation transaction submitted by account `i` (a P2ID note of
`send_amount` tokens payable to account `i + 1`) and one note-consumption
transaction submitted by account `i + 1`, in that order. -/

/-- Kind of a settlement transaction of the chain. -/
inductive TxKind where
  | create : TxKind
  | consume : TxKind
deriving DecidableEq, Repr

/-- One settlement transaction: its kind, the hop it settles, and the index
of the account that submits it. -/
structure ChainTx where
  kind : TxKind
  hop : Nat
  submitter : Nat
deriving DecidableEq, Repr

/-- The per-hop pair of transactions: creation by account `i`, then
consumption by account `i + 1` (the source submits them in this order
inside one loop iteration). -/
def hopTxs (i : Nat) : List ChainTx :=
  [⟨.create, i, i⟩, ⟨.consume, i, i + 1⟩]

/-- The full submission sequence of the chain over `number_of_accounts`
participants: the loop `for i in 0..number_of_accounts - 1`, flattened in
submission order. -/
def chainTxs (number_of_accounts : Nat) : List ChainTx :=
  (List.range (number_of_accounts - 1)).flatMap hopTxs

/-- Effect of one settlement transaction on the per-account balances of the
faucet asset: creation moves `send_amount` out of the sender's vault into
the note; consumption moves it into the receiver's vault. -/
def applyChainTx (send_amount : Nat) (bal : Nat → Int) (t : ChainTx) : Nat → Int :=
  match t.kind with
  | .create => fun j => if j = t.hop then bal j - send_amount else bal j
  | .consume => fun j => if j = t.hop + 1 then bal j + send_amount else bal j

/-- Final balances after the whole chain ran, starting from `bal`. -/
def runChain (number_of_accounts send_amount : Nat) (bal : Nat → Int) : Nat → Int :=
  (chainTxs number_of_accounts).foldl (applyChainTx send_amount) bal

theorem chainTxs_succ (m : Nat) :
    (List.range (m + 1)).flatMap hopTxs = (List.range m).flatMap hopTxs ++ hopTxs m := by
  rw [List.range_succ, List.flatMap_append]
  simp

theorem chainTxs_length_aux : ∀ m : Nat, ((List.range m).flatMap hopTxs).length = 2 * m := by
  intro m
  induction m with
  | zero => rfl
  | succ n ih => rw [chainTxs_succ, List.length_append, ih]; simp [hopTxs]; omega

theorem chainTxs_get_aux : ∀ m i, i < m →
    ((List.range m).flatMap hopTxs)[2 * i]? = some ⟨.create, i, i⟩ ∧
    ((List.range m).flatMap hopTxs)[2 * i + 1]? = some ⟨.consume, i, i + 1⟩ := by
  intro m
  induction m with
  | zero => intro i h; omega
  | succ n ih =>
    intro i h
    rw [chainTxs_succ]
    by_cases hi : i < n
    · have h1 : 2 * i < ((List.range n).flatMap hopTxs).length := by
        rw [chainTxs_length_aux]; omega
      have h2 : 2 * i + 1 < ((List.range n).flatMap hopTxs).length := by
        rw [chainTxs_length_aux]; omega
      rw [List.getElem?_append_left h1, List.getElem?_append_left h2]
      exact ih i hi
    · have hi' : i = n := by omega
      subst hi'
      have hlen : ((List.range i).flatMap hopTxs).length = 2 * i :=
        chainTxs_length_aux i
      constructor
      · rw [List.getElem?_append_right (by omega)]
        simp [hlen, hopTxs]
      · rw [List.getElem?_append_right (by omega)]
        have : 2 * i + 1 - ((List.range i).flatMap hopTxs).length = 1 := by omega
        rw [this]
        simp [hopTxs]

/-- C4: a chain over `n` participant accounts produces exactly `2 * (n - 1)`
settlement transactions, and for every hop `i` the creation transaction sits
at position `2 * i` of the submission sequence while the consumption
transaction sits at position `2 * i + 1`: hop `i`'s consumption is submitted
strictly after hop `i`'s creation has been accepted for submission. -/
theorem chain_produces_two_txs_per_hop (n : Nat) (hn : 1 ≤ n) :
    (chainTxs n).length = 2 * (n - 1) ∧
    ∀ i, i < n - 1 →
      (chainTxs n)[2 * i]? = some ⟨.create, i, i⟩ ∧
      (chainTxs n)[2 * i + 1]? = some ⟨.consume, i, i + 1⟩ ∧
      2 * i < 2 * i + 1 := by
  refine ⟨chainTxs_length_aux (n - 1), fun i hi => ?_⟩
  obtain ⟨h1, h2⟩ := chainTxs_get_aux (n - 1) i hi
  exact ⟨h1, h2, by omega⟩

/-- Witness for C4: the chain over the 10 accounts of the source produces
18 transactions, with hop 3's creation at position 6 and its consumption at
position 7. -/
theorem chain_produces_two_txs_per_hop_witness :
    (chainTxs 10).length = 2 * (10 - 1) ∧
    (chainTxs 10)[2 * 3]? = some ⟨.create, 3, 3⟩ ∧
    (chainTxs 10)[2 * 3 + 1]? = some ⟨.consume, 3, 3 + 1⟩ := by
  obtain ⟨hlen, hget⟩ := chain_produces_two_txs_per_hop 10 (by decide)
  obtain ⟨h1, h2, _⟩ := hget 3 (by decide)
  exact ⟨hlen, h1, h2⟩

/-- Counterexample to C5 as stated: for the chain of 3 accounts with
per-hop amount 20 and zero starting balances, account 0's final balance is
`-20`, not the claimed `-40` (account 0 is the sender of hop 0 only, and
each hop transfers 20). -/
theorem chain_three_accounts_claimed_balance_false :
    runChain 3 20 (fun _ => 0) 0 = -20 ∧
    ¬ (runChain 3 20 (fun _ => 0) 0 = -40) := by
  constructor
  · rfl
  · intro h
    have h20 : runChain 3 20 (fun _ => 0) 0 = -20 := rfl
    rw [h20] at h
    exact absurd h (by decide)

/-- C5 amended: chain of 3 accounts with per-hop amount 20 produces 4
transactions; relative to arbitrary starting balances, account 0 ends `-20`
(it only sends in hop 0), account 1 ends unchanged (pass-through), and
account 2 ends `+20`. -/
theorem chain_three_accounts_balances (bal : Nat → Int) :
    (chainTxs 3).length = 4 ∧
    runChain 3 20 bal 0 = bal 0 - 20 ∧
    runChain 3 20 bal 1 = bal 1 ∧
    runChain 3 20 bal 2 = bal 2 + 20 := by
  refine ⟨rfl, ?_, ?_, ?_⟩ <;>
    simp [runChain, chainTxs, applyChainTx, hopTxs, List.range, List.range.loop]

/-! ## Script Template Resolver
(`counter_contract_increment.rs` line 190, `counter_contract_fpi.rs` lines 105-114)

The source resolves script templates with chained Rust `String::replace`
calls on placeholders such as `\x7bget_count_proc_hash\x7d` and
`\x7baccount_id_prefix\x7d`. `String::replace` scans left to right and
substitutes every non-overlapping occurrence of the pattern; it is
modelled here on `List Char`. -/

/-- Model of Rust `String::replace pat rep`: scan left to right, replace
each non-overlapping occurrence of `pat` by `rep`, resuming after the
replaced slice. (For the empty pattern this model leaves the string
unchanged; all placeholder patterns of the source are non-empty.) -/
def replaceList (pat rep : List Char) : List Char → List Char
  | [] => []
  | c :: rest =>
    if pat ≠ [] ∧ pat.isPrefixOf (c :: rest) then
      rep ++ replaceList pat rep (rest.drop (pat.length - 1))
    else
      c :: replaceList pat rep rest
termination_by s => s.length
decreasing_by
  · simp; omega
  · simp

/-- Whether `pat` occurs as a contiguous slice of `s` (Rust `str::contains`). -/
def containsSlice (pat : List Char) : List Char → Bool
  | [] => pat.isEmpty
  | c :: rest => pat.isPrefixOf (c :: rest) || containsSlice pat rest

/-- Template resolution as the source performs it: fold the chained
`.replace(placeholder, value)` calls over the bindings. -/
def resolveTemplate (bindings : List (List Char × List Char)) (s : List Char) :
    List Char :=
  bindings.foldl (fun acc pv => replaceList pv.1 pv.2 acc) s

theorem replaceList_of_not_contains (pat rep : List Char) :
    ∀ s : List Char, containsSlice pat s = false → replaceList pat rep s = s := by
  intro s
  induction s with
  | nil => intro _; rw [replaceList]
  | cons c rest ih =>
    intro h
    simp only [containsSlice, Bool.or_eq_false_iff] at h
    obtain ⟨h1, h2⟩ := h
    rw [replaceList, if_neg (by simp [h1]), ih h2]

/-- C7: template resolution is idempotent on fully substituted sources: if
no recognized placeholder occurs in the script source any more, applying
the same placeholder-to-value substitutions again returns the input string
unchanged. -/
theorem template_resolution_idempotent (bindings : List (List Char × List Char))
    (s : List Char)
    (h : ∀ pv ∈ bindings, containsSlice pv.1 s = false) :
    resolveTemplate bindings s = s := by
  induction bindings with
  | nil => rfl
  | cons pv rest ih =>
    simp only [resolveTemplate, List.foldl_cons]
    rw [replaceList_of_not_contains pv.1 pv.2 s (h pv (List.mem_cons_self pv rest))]
    exact ih (fun q hq => h q (List.mem_cons_of_mem pv hq))

/-- Witness for C7: a concrete already-substituted counter script source,
resolved again with the same binding for the `get_count_proc_hash`
placeholder, is returned unchanged. -/
theorem template_resolution_idempotent_witness :
    (∀ pv ∈ ([("\x7bget_count_proc_hash\x7d".toList, "0x92495c".toList)] :
          List (List Char × List Char)),
        containsSlice pv.1 "push.0x92495c call".toList = false) ∧
    resolveTemplate [("\x7bget_count_proc_hash\x7d".toList, "0x92495c".toList)]
        "push.0x92495c call".toList = "push.0x92495c call".toList := by
  refine ⟨?_, template_resolution_idempotent _ _ ?_⟩ <;>
  · intro pv hpv
    simp only [List.mem_singleton] at hpv
    subst hpv
    rfl

/-! ## Note transport round trip
(`unauthenticated_note_transfer.rs` lines 220-221, `ephemeral_note_transfer.rs`
lines 240-241: `p2id_note.to_bytes()` / `Note::read_from_bytes`)

The `Serializable`/`Deserializable` implementations live in the external
miden crates, not in this repository; the data model and codec below are
modelled from the spec: a note is an asset bundle, metadata (sender,
visibility, tag, execution hint, aux counter) and a recipient descriptor
(serial number, script, script inputs); it has a stable byte serialization
that fully determines it, and its identity is a deterministic digest of its
contents (spec §3, §6). The byte stream is modelled as a `List Nat` of
tokens, with lists length-prefixed, and the deserializer rejects
unconsumed trailing bytes. -/

/-- A fungible asset held by a note: issuing faucet id and amount. -/
structure Asset where
  faucet : AccountId
  amount : Nat
deriving DecidableEq, Repr

/-- Note metadata: sender, visibility (public/private discriminant), tag,
execution hint and aux counter. -/
structure NoteMetadataM where
  sender : AccountId
  note_type : Nat
  tag : Nat
  execution_hint : Nat
  aux_felt : Nat
deriving DecidableEq, Repr

/-- Note recipient descriptor: serial number, script (by its root digest)
and script inputs. -/
structure NoteRecipientM where
  serial_num : Word4
  script_root : Word4
  inputs : List Nat
deriving DecidableEq, Repr

/-- A note: assets, metadata, recipient. Immutable once created. -/
structure NoteM where
  assets : List Asset
  metadata : NoteMetadataM
  recipient : NoteRecipientM
deriving DecidableEq, Repr

def serializeAsset (a : Asset) : List Nat :=
  [a.faucet.prefix_felt, a.faucet.suffix_felt, a.amount]

def serializeWord (w : Word4) : List Nat :=
  [w.w0, w.w1, w.w2, w.w3]

def serializeMetadata (m : NoteMetadataM) : List Nat :=
  [m.sender.prefix_felt, m.sender.suffix_felt, m.note_type, m.tag,
   m.execution_hint, m.aux_felt]

/-- Modelled from the spec: `Note::to_bytes` (external `Serializable`
implementation) — every content field of the note, in a fixed order, with
lists length-prefixed. -/
def serializeNote (n : NoteM) : List Nat :=
  n.assets.length :: (n.assets.flatMap serializeAsset
    ++ serializeMetadata n.metadata
    ++ serializeWord n.recipient.serial_num
    ++ serializeWord n.recipient.script_root
    ++ (n.recipient.inputs.length :: n.recipient.inputs))

def readAsset (b : List Nat) : Option (Asset × List Nat) :=
  match b with
  | p :: s :: amt :: rest => some (⟨⟨p, s⟩, amt⟩, rest)
  | _ => none

def readAssets : Nat → List Nat → Option (List Asset × List Nat)
  | 0, b => some ([], b)
  | k + 1, b =>
    (readAsset b).bind fun ab =>
      (readAssets k ab.2).map fun tb => (ab.1 :: tb.1, tb.2)

def readNats : Nat → List Nat → Option (List Nat × List Nat)
  | 0, b => some ([], b)
  | k + 1, b =>
    match b with
    | [] => none
    | t :: rest =>
      (readNats k rest).map fun tb => (t :: tb.1, tb.2)

def readWord (b : List Nat) : Option (Word4 × List Nat) :=
  match b with
  | x0 :: x1 :: x2 :: x3 :: rest => some (⟨x0, x1, x2, x3⟩, rest)
  | _ => none

def readMetadata (b : List Nat) : Option (NoteMetadataM × List Nat) :=
  match b with
  | p :: s :: ty :: tg :: hint :: ax :: rest =>
    some (⟨⟨p, s⟩, ty, tg, hint, ax⟩, rest)
  | _ => none

/-- Modelled from the spec: `Note::read_from_bytes` (external
`Deserializable` implementation) — parse the fields in serialization order
and reject any unconsumed trailing bytes. -/
def deserializeNote (b : List Nat) : Option NoteM :=
  match b with
  | [] => none
  | cnt :: b0 =>
    (readAssets cnt b0).bind fun ab =>
    (readMetadata ab.2).bind fun mb =>
    (readWord mb.2).bind fun sb =>
    (readWord sb.2).bind fun rb =>
    match rb.2 with
    | [] => none
    | icnt :: b5 =>
      (readNats icnt b5).bind fun ib =>
      if ib.2 = [] then some ⟨ab.1, mb.1, ⟨sb.1, rb.1, ib.1⟩⟩
      else none

/-- Modelled from the spec: the note id is a deterministic digest of the
note's serialized content (spec §3: "identity is a deterministic digest of
their contents"). -/
def noteId (n : NoteM) : Nat :=
  (serializeNote n).foldl (fun h t => h * 1000003 + t + 1) 7

theorem readMetadata_roundtrip (m : NoteMetadataM) (rest : List Nat) :
    readMetadata (serializeMetadata m ++ rest) = some (m, rest) := rfl

theorem readWord_roundtrip (w : Word4) (rest : List Nat) :
    readWord (serializeWord w ++ rest) = some (w, rest) := rfl

theorem readAssets_roundtrip (l : List Asset) (rest : List Nat) :
    readAssets l.length (l.flatMap serializeAsset ++ rest) = some (l, rest) := by
  induction l with
  | nil => rfl
  | cons a tl ih =>
    simp only [List.length_cons, List.flatMap_cons, List.append_assoc]
    rw [readAssets]
    have h1 : readAsset (serializeAsset a ++ (tl.flatMap serializeAsset ++ rest))
        = some (a, tl.flatMap serializeAsset ++ rest) := rfl
    rw [h1, Option.some_bind, ih]; rfl

theorem readNats_roundtrip (l rest : List Nat) :
    readNats l.length (l ++ rest) = some (l, rest) := by
  induction l with
  | nil => rfl
  | cons t tl ih =>
    simp only [List.length_cons, List.cons_append]
    rw [readNats, ih]; rfl

theorem readNats_all (l : List Nat) :
    readNats l.length l = some (l, []) := by
  have := readNats_roundtrip l []
  rwa [List.append_nil] at this

/-- C2: every note survives a serialize→deserialize cycle: deserializing
the byte serialization of `n` yields `n` itself, and in particular a note
whose identity digest equals `n`'s identity. -/
theorem note_serialization_roundtrip (n : NoteM) :
    deserializeNote (serializeNote n) = some n ∧
    (deserializeNote (serializeNote n)).map noteId = some (noteId n) := by
  obtain ⟨noteAssets, md, serial, root, noteInputs⟩ := n
  have hrt : deserializeNote (serializeNote ⟨noteAssets, md, serial, root, noteInputs⟩)
      = some ⟨noteAssets, md, ⟨serial, root, noteInputs⟩⟩ := by
    simp only [serializeNote, deserializeNote, List.append_assoc]
    rw [readAssets_roundtrip, Option.some_bind]
    rw [readMetadata_roundtrip, Option.some_bind]
    rw [readWord_roundtrip, Option.some_bind]
    rw [readWord_roundtrip, Option.some_bind]
    simp only [readNats_all, Option.some_bind]
    rfl
  exact ⟨hrt, by rw [hrt]; rfl⟩

/-! ## Deterministic key helper
(`common.rs` lines 92-102, `counter_contract_fpi.rs` lines 65-80,
`hash_preimage_note.rs` lines 47-55: `get_new_pk_and_authenticator`)

The Falcon-512 key-generation internals (`ChaCha20Rng::from_seed`,
`SecretKey::with_rng`) are external library code; what the claim rests on
is their shape: the generated key pair is a deterministic function of the
RNG seed, and all three copies of the source function seed the RNG with
the compile-time constant `[0_u8; 32]`. The RNG and DSA internals are
modelled as deterministic functions of the seed stream. -/

/-- The all-zero 32-byte seed `[0_u8; 32]` of the source. -/
def zeroSeed : List Nat :=
  List.replicate 32 0

/-- Deterministic model of the `ChaCha20Rng::from_seed` keystream: a stream
of draws computed from the seed alone (the concrete mixing function is
irrelevant to the claims; only determinism in the seed is). -/
def chaCha20Stream (seed : List Nat) : Nat → Nat :=
  fun i => (seed.foldl (fun h b => h * 31 + b + 1) 11) * (i + 1)

/-- A Falcon-512 secret key, identified by the RNG draws that produced it. -/
structure SecretKeyM where
  draws : List Nat
deriving DecidableEq, Repr

/-- Deterministic model of `SecretKey::with_rng`: consume a fixed number of
draws from the RNG stream. -/
def secretKeyWithRng (stream : Nat → Nat) : SecretKeyM :=
  ⟨(List.range 64).map stream⟩

/-- Deterministic model of `sec_key.public_key().into()`: the public-key
`Word` derived from the secret key. -/
def publicKeyWord (sk : SecretKeyM) : Word4 :=
  ⟨sk.draws.foldl (fun h t => h * 131 + t) 3, 0, 0, 0⟩

/-- `AuthSecretKey::RpoFalcon512` wrapper of the source. -/
inductive AuthSecretKeyM where
  | rpoFalcon512 (sk : SecretKeyM) : AuthSecretKeyM
deriving DecidableEq, Repr

/-- Shallow embedding of `get_new_pk_and_authenticator`: whatever varying
state the calling workflow has (modelled by the otherwise-unused `ambient`
parameter), the body binds `seed = [0_u8; 32]`, seeds the RNG with it, and
derives the key pair — it reads no varying input at all. -/
def get_new_pk_and_authenticator (ambient : Nat) : Word4 × AuthSecretKeyM :=
  let seed := zeroSeed
  let rng := chaCha20Stream seed
  let sec_key := secretKeyWithRng rng
  have _ := ambient
  (publicKeyWord sec_key, .rpoFalcon512 sec_key)

/-- C10: `get_new_pk_and_authenticator` is a constant: two calls made in any
two call environments return the identical Falcon-512 public-key `Word` and
the identical secret key, so any two accounts whose authentication key is
produced by it share the same key pair. -/
theorem key_helper_returns_same_key_pair (e1 e2 : Nat) :
    get_new_pk_and_authenticator e1 = get_new_pk_and_authenticator e2 ∧
    (get_new_pk_and_authenticator e1).1 = (get_new_pk_and_authenticator e2).1 ∧
    (get_new_pk_and_authenticator e1).2 = (get_new_pk_and_authenticator e2).2 :=
  ⟨rfl, rfl, rfl⟩

end MidenTutorials
